import Mathlib

/-!
# go-scim: schema declaration of `server.NewServer` and the e2e schema validators

Shallow embedding of

* `src/server/server.go` : the schemas and resource types declared by `NewServer`;
* `src/e2e-test/users_test.go` : `schemaValidators`, `validate`, `validateUserSchema`,
  `validateGroupSchema`, `validateEnterpriseUser` and the `TestPostUser` payload.

Go values are embedded as follows: a struct literal becomes a Lean structure instance, a
field that the literal leaves out takes the Go zero value (`false`, or `none` for an
option-like field), `[]T` becomes `List T`, and a Go `error` becomes the list of the
messages joined into it (`[]` is `nil`).

The validation engine and the resource store that serve `POST /Users` are not among the
source files; they are modelled from the specification in a section of their own, and
every definition of that model says so.
-/

namespace Scim

/-! ## Schema declarations (`schema` package values used by `server.go`) -/

/-- Data kind of an attribute definition. -/
inductive DataKind where
  | string
  | bool
  | decimal
  | integer
  | dateTime
  | reference
  | complex
  deriving DecidableEq, Repr

/-- Uniqueness scope of an attribute: `AttributeUniquenessNone()`,
`AttributeUniquenessServer()`, and the global scope. -/
inductive AttributeUniqueness where
  | none
  | server
  | global
  deriving DecidableEq, Repr

/-- Attribute write policy. -/
inductive AttributeMutability where
  | readWrite
  | readOnly
  | immutable
  | writeOnce
  deriving DecidableEq, Repr

/-- Fields of `schema.StringParams` that `server.go` can set; an omitted field is the Go zero
value (`Uniqueness`, `Mutability`, `Description`: `none` means the literal does not set it). -/
structure StringParams where
  Name : String
  Required : Bool := false
  MultiValued : Bool := false
  CaseExact : Bool := false
  Uniqueness : Option AttributeUniqueness := none
  Mutability : Option AttributeMutability := none
  Description : Option String := none
  deriving DecidableEq, Repr

/-- Fields of `schema.DateTimeParams`. -/
structure DateTimeParams where
  Name : String
  Required : Bool := false
  MultiValued : Bool := false
  Mutability : Option AttributeMutability := none
  Description : Option String := none
  deriving DecidableEq, Repr

/-- Fields of `schema.BooleanParams`. -/
structure BooleanParams where
  Name : String
  Required : Bool := false
  MultiValued : Bool := false
  Mutability : Option AttributeMutability := none
  Description : Option String := none
  deriving DecidableEq, Repr

/-- A simple (non-complex) attribute definition, `schema.SimpleParams`. -/
structure SimpleParams where
  name : String
  typ : DataKind
  required : Bool
  multiValued : Bool
  caseExact : Bool
  uniqueness : Option AttributeUniqueness
  mutability : Option AttributeMutability
  description : Option String
  deriving DecidableEq, Repr

/-- `schema.SimpleStringParams`. -/
def SimpleStringParams (p : StringParams) : SimpleParams :=
  { name := p.Name, typ := DataKind.string, required := p.Required,
    multiValued := p.MultiValued, caseExact := p.CaseExact, uniqueness := p.Uniqueness,
    mutability := p.Mutability, description := p.Description }

/-- `schema.SimpleDateTimeParams`. -/
def SimpleDateTimeParams (p : DateTimeParams) : SimpleParams :=
  { name := p.Name, typ := DataKind.dateTime, required := p.Required,
    multiValued := p.MultiValued, caseExact := false, uniqueness := none,
    mutability := p.Mutability, description := p.Description }

/-- `schema.SimpleBooleanParams`. -/
def SimpleBooleanParams (p : BooleanParams) : SimpleParams :=
  { name := p.Name, typ := DataKind.bool, required := p.Required,
    multiValued := p.MultiValued, caseExact := false, uniqueness := none,
    mutability := p.Mutability, description := p.Description }

/-- Fields of `schema.ComplexParams`: the sub-attributes are simple parameters. -/
structure ComplexParams where
  Name : String
  Required : Bool := false
  MultiValued : Bool := false
  Uniqueness : Option AttributeUniqueness := none
  Mutability : Option AttributeMutability := none
  Description : Option String := none
  SubAttributes : List SimpleParams := []
  deriving DecidableEq, Repr

/-- An attribute definition of a schema, `schema.CoreAttribute`, built either by
`schema.SimpleCoreAttribute` or by `schema.ComplexCoreAttribute`. -/
inductive CoreAttribute where
  | SimpleCoreAttribute (p : SimpleParams)
  | ComplexCoreAttribute (p : ComplexParams)
  deriving DecidableEq, Repr

open CoreAttribute

namespace CoreAttribute

/-- Declared name. -/
def name : CoreAttribute → String
  | SimpleCoreAttribute p => p.name
  | ComplexCoreAttribute p => p.Name

/-- Declared data kind. -/
def typ : CoreAttribute → DataKind
  | SimpleCoreAttribute p => p.typ
  | ComplexCoreAttribute _ => DataKind.complex

/-- Declared required flag. -/
def required : CoreAttribute → Bool
  | SimpleCoreAttribute p => p.required
  | ComplexCoreAttribute p => p.Required

/-- Declared multiplicity. -/
def multiValued : CoreAttribute → Bool
  | SimpleCoreAttribute p => p.multiValued
  | ComplexCoreAttribute p => p.MultiValued

/-- Uniqueness the declaration sets, if it sets one. -/
def uniqueness : CoreAttribute → Option AttributeUniqueness
  | SimpleCoreAttribute p => p.uniqueness
  | ComplexCoreAttribute p => p.Uniqueness

/-- Mutability the declaration sets, if it sets one. -/
def mutability : CoreAttribute → Option AttributeMutability
  | SimpleCoreAttribute p => p.mutability
  | ComplexCoreAttribute p => p.Mutability

/-- Sub-attribute definitions: those of a complex attribute, none for a simple one. -/
def subAttributes : CoreAttribute → List CoreAttribute
  | SimpleCoreAttribute _ => []
  | ComplexCoreAttribute p => p.SubAttributes.map SimpleCoreAttribute

/-- Whether the attribute is of kind complex. -/
def isComplex (a : CoreAttribute) : Bool :=
  decide (a.typ = DataKind.complex)

end CoreAttribute

/-- A schema, `schema.Schema`. -/
structure Schema where
  ID : String
  Name : Option String := none
  Description : Option String := none
  Attributes : List CoreAttribute := []
  deriving DecidableEq, Repr

/-- A schema extension of a resource type, `scim.SchemaExtension`. -/
structure SchemaExtension where
  Schema : Schema
  deriving DecidableEq, Repr

/-- A resource type, `scim.ResourceType` (the handler is not part of the data). -/
structure ResourceType where
  ID : Option String := none
  Name : String
  Endpoint : String
  Description : Option String := none
  Schema : Schema
  SchemaExtensions : List SchemaExtension := []
  deriving DecidableEq, Repr

/-- The fields of `scim.ServiceProviderConfig` that `NewServer` sets. -/
structure ServiceProviderConfig where
  DocumentationURI : Option String := none
  deriving DecidableEq, Repr

/-- The arguments `NewServer` passes to `scim.NewServer`. -/
structure ServerArgs where
  ServiceProviderConfig : ServiceProviderConfig := {}
  ResourceTypes : List ResourceType
  deriving DecidableEq, Repr

namespace NewServer

/-- The `sc` schema of `NewServer`: the core User schema. -/
def sc : Schema :=
  { ID := "urn:ietf:params:scim:schemas:core:2.0:User"
    Name := some "User"
    Description := some "User Account"
    Attributes := [
      ComplexCoreAttribute {
        Name := "name"
        Required := true
        SubAttributes := [
          SimpleStringParams { Name := "formatted", Required := false },
          SimpleStringParams { Name := "familyName", Required := false },
          SimpleStringParams { Name := "givenName", Required := false },
          SimpleStringParams { Name := "middleName", Required := false },
          SimpleStringParams { Name := "honorificPrefix", Required := false },
          SimpleStringParams { Name := "honorificSuffix", Required := false } ] },
      SimpleCoreAttribute (SimpleStringParams {
        Name := "displayName", Required := false,
        Uniqueness := some AttributeUniqueness.none }),
      SimpleCoreAttribute (SimpleStringParams {
        Name := "nickName", Required := false,
        Uniqueness := some AttributeUniqueness.none }),
      SimpleCoreAttribute (SimpleStringParams {
        Name := "userName", Required := true,
        Uniqueness := some AttributeUniqueness.server }),
      SimpleCoreAttribute (SimpleStringParams {
        Name := "profileUrl", Required := false,
        Uniqueness := some AttributeUniqueness.none }),
      SimpleCoreAttribute (SimpleStringParams {
        Name := "title", Required := false,
        Uniqueness := some AttributeUniqueness.none }),
      SimpleCoreAttribute (SimpleStringParams {
        Name := "userType", Required := false,
        Uniqueness := some AttributeUniqueness.none }),
      SimpleCoreAttribute (SimpleStringParams {
        Name := "preferredLanguage", Required := false,
        Uniqueness := some AttributeUniqueness.none }),
      SimpleCoreAttribute (SimpleStringParams {
        Name := "locale", Required := false,
        Uniqueness := some AttributeUniqueness.none }),
      SimpleCoreAttribute (SimpleDateTimeParams {
        Name := "timezone", Required := false }),
      SimpleCoreAttribute (SimpleBooleanParams {
        Name := "active",
        Description := some "A Boolean value indicating the user's administrative status.",
        Required := false }),
      ComplexCoreAttribute {
        Name := "emails"
        Required := false
        MultiValued := true
        SubAttributes := [
          SimpleBooleanParams { Name := "primary" },
          SimpleStringParams { Name := "value", Required := true },
          SimpleStringParams { Name := "display", Required := false },
          SimpleStringParams { Name := "type", Required := true } ] },
      ComplexCoreAttribute {
        Name := "phoneNumbers"
        Required := false
        MultiValued := true
        SubAttributes := [
          SimpleBooleanParams { Name := "primary" },
          SimpleStringParams { Name := "value", Required := true },
          SimpleStringParams { Name := "display", Required := false },
          SimpleStringParams { Name := "type", Required := true } ] },
      SimpleCoreAttribute (SimpleStringParams {
        Name := "photos", Required := false, MultiValued := true }) ] }

/-- The `extension` schema of `NewServer`: the enterprise User extension, whose attribute
list holds only commented-out entries. -/
def extension : Schema :=
  { ID := "urn:ietf:params:scim:schemas:extension:enterprise:2.0:User"
    Name := some "EnterpriseUser"
    Description := some "Enterprise User"
    Attributes := [] }

/-- The single element of the `resourceTypes` of `NewServer`: the User resource type. -/
def userResourceType : ResourceType :=
  { ID := some "User"
    Name := "User"
    Endpoint := "/Users"
    Description := some "User Account"
    Schema := sc
    SchemaExtensions := [ { Schema := extension } ] }

/-- The `resourceTypes` of `NewServer`. -/
def resourceTypes : List ResourceType :=
  [ userResourceType ]

/-- The `spCfg` of `NewServer`. -/
def spCfg : ServiceProviderConfig :=
  { DocumentationURI := some "https://docs.intility.com/identity/scim" }

/-- The `serverArgs` of `NewServer`. -/
def serverArgs : ServerArgs :=
  { ServiceProviderConfig := spCfg
    ResourceTypes := resourceTypes }

end NewServer

/-- The schemas a server registers: for each resource type its base schema followed by the
schema of each of its extensions. -/
def registeredSchemas (args : ServerArgs) : List Schema :=
  args.ResourceTypes.flatMap fun rt => rt.Schema :: rt.SchemaExtensions.map fun e => e.Schema

/-! ## The schema validators of `e2e-test/users_test.go` -/

/-- The test's `Attribute`: one attribute of a schema as decoded from `/Schemas`. -/
structure Attribute where
  Description : String
  Mutability : String
  Name : String
  Returned : String
  Typ : String
  Uniqueness : String
  CaseExact : Bool
  MultiValued : Bool
  Required : Bool
  deriving DecidableEq, Repr

/-- The test's `Resource`: one schema as decoded from `/Schemas`. -/
structure Resource where
  Attributes : List Attribute
  Description : String
  ID : String
  Name : String
  Schemas : List String
  deriving DecidableEq, Repr

/-- A Go `error` built with `errors.New` and `errors.Join`: the joined messages, the most
recently joined first; `[]` is `nil`. -/
abbrev GoError := List String

/-- The test's `ValidatorFunc`. -/
abbrev ValidatorFunc := Resource → GoError

/-- The `wellknownAttrs` of `validateGroupSchema`. -/
def groupWellknownAttrs : List String :=
  ["userName", "phoneNumbers", "surname"]

/-- The test's `validateGroupSchema`. -/
def validateGroupSchema (resource : Resource) : GoError :=
  resource.Attributes.foldl
    (fun err attr =>
      if groupWellknownAttrs.contains attr.Name then err
      else ("unknown attr: " ++ attr.Name) :: err)
    []

/-- The `wellknownAttrs` of `validateUserSchema`. -/
def wellknownAttrs : List String :=
  ["name", "userName", "displayName", "userType", "title", "profileUrl", "nickName",
   "preferredLanguage", "phoneNumbers", "emails", "locale", "timezone", "active", "photos"]

/-- The first loop of `validateUserSchema`: collects `discoveredAttrs` and joins an
`unknown attr` error for each attribute whose name is not well known. -/
def validateUserSchemaDiscover (attrs : List Attribute) : List String × GoError :=
  attrs.foldl
    (fun (st : List String × GoError) attr =>
      (st.1 ++ [attr.Name],
       if wellknownAttrs.contains attr.Name then st.2
       else ("unknown attr: " ++ attr.Name) :: st.2))
    ([], [])

/-- The test's `validateUserSchema`. -/
def validateUserSchema (resource : Resource) : GoError :=
  let st := validateUserSchemaDiscover resource.Attributes
  wellknownAttrs.foldl
    (fun err attr =>
      if st.1.contains attr then err
      else ("missing attribute in user schema: " ++ attr) :: err)
    st.2

/-- The test's `validateEnterpriseUser`. -/
def validateEnterpriseUser (_resource : Resource) : GoError :=
  []

/-- The test's `schemaValidators` table. -/
def schemaValidators : List (String × ValidatorFunc) :=
  [ ("urn:ietf:params:scim:schemas:core:2.0:User", validateUserSchema),
    ("urn:ietf:params:scim:schemas:core:2.0:Group", validateGroupSchema),
    ("urn:ietf:params:scim:schemas:extension:enterprise:2.0:User", validateEnterpriseUser) ]

/-- The test's `validate`: the validator registered for the resource's ID, or the
`unknown schema` error. -/
def validate (resource : Resource) : GoError :=
  match schemaValidators.lookup resource.ID with
  | some v => v resource
  | none => ["unknown schema: " ++ resource.ID]

/-- A decoded `/Schemas` resource represents a declared schema when it carries the schema's
ID and the names of the schema's attributes, in declaration order. -/
def Represents (resource : Resource) (s : Schema) : Prop :=
  resource.ID = s.ID ∧ resource.Attributes.map (fun a => a.Name) = s.Attributes.map CoreAttribute.name

instance (resource : Resource) (s : Schema) : Decidable (Represents resource s) := by
  unfold Represents; infer_instance

/-! ## The `TestPostUser` payload of `e2e-test/users_test.go` -/

/-- A JSON value. -/
inductive Value where
  | null
  | bool (b : Bool)
  | num (n : Int)
  | str (s : String)
  | arr (items : List Value)
  | obj (fields : List (String × Value))

/-- The members of a JSON object, in document order. -/
abbrev Fields := List (String × Value)

/-- The test's `Email`. -/
structure Email where
  Typ : String := ""
  Value : String := ""
  Primary : Bool := false
  deriving DecidableEq, Repr

/-- The test's `Meta`. -/
structure Meta where
  ResourceType : String := ""
  deriving DecidableEq, Repr

/-- The test's `Name`. -/
structure Name where
  Formatted : String := ""
  FamilyName : String := ""
  GivenName : String := ""
  deriving DecidableEq, Repr

/-- The test's `Role`, a struct without fields. -/
structure Role where
  deriving DecidableEq, Repr

/-- The test's `CreateUserRequest`. -/
structure CreateUserRequest where
  Name : Scim.Name := {}
  ExternalID : String := ""
  UserName : String := ""
  Meta : Scim.Meta := {}
  Schemas : List String := []
  Emails : List Email := []
  Roles : List Role := []
  Active : Bool := false
  deriving DecidableEq, Repr

/-- JSON encoding of an `Email` by its `json` tags. -/
def Email.toJSON (e : Email) : Scim.Value :=
  Scim.Value.obj [("type", Scim.Value.str e.Typ), ("value", Scim.Value.str e.Value),
    ("primary", Scim.Value.bool e.Primary)]

/-- JSON encoding of a `Meta` by its `json` tags. -/
def Meta.toJSON (m : Meta) : Value :=
  Value.obj [("resourceType", Value.str m.ResourceType)]

/-- JSON encoding of a `Name` by its `json` tags. -/
def Name.toJSON (n : Name) : Value :=
  Value.obj [("formatted", Value.str n.Formatted), ("familyName", Value.str n.FamilyName),
    ("givenName", Value.str n.GivenName)]

/-- JSON encoding of a `Role`: an object without members. -/
def Role.toJSON (_r : Role) : Value :=
  Value.obj []

/-- The members of the JSON object `json.NewEncoder(&buf).Encode(payload)` writes for a
`CreateUserRequest` whose slices are non-nil: one member per field, keyed by the field's
`json` tag, in field order. -/
def CreateUserRequest.toJSON (r : CreateUserRequest) : Fields :=
  [ ("name", r.Name.toJSON),
    ("externalId", Value.str r.ExternalID),
    ("userName", Value.str r.UserName),
    ("meta", r.Meta.toJSON),
    ("schemas", Value.arr (r.Schemas.map Value.str)),
    ("emails", Value.arr (r.Emails.map Email.toJSON)),
    ("roles", Value.arr (r.Roles.map Role.toJSON)),
    ("active", Value.bool r.Active) ]

namespace TestPostUser

/-- The `payload` of `TestPostUser`. -/
def payload : CreateUserRequest :=
  { Schemas := [
      "urn:ietf:params:scim:schemas:core:2.0:User",
      "urn:ietf:params:scim:schemas:extension:enterprise:2.0:User" ]
    ExternalID := "0a21f0f2-8d2a-4f8e-bf98-7363c4aed4ef"
    UserName := "mctestie"
    Active := true
    Emails := [
      { Primary := true, Typ := "work", Value := "mctesties@testuser.com" },
      { Value := "testies@foo.com" } ]
    Meta := { ResourceType := "User" }
    Name := { Formatted := "Testuser McTesties", FamilyName := "McTesties",
              GivenName := "Testuser" }
    Roles := [] }

end TestPostUser

/-! ## Views of the declarations used by the schema properties -/

/-- Modelled from the spec: case folding of a name (the comparison of names is part of the
engine, which is not in the source files): ASCII letters are lowered, other characters are
kept. -/
def caseFold (s : String) : String :=
  String.mk (s.data.map Char.toLower)

/-- Modelled from the spec: the case-insensitive match of two names (the comparison of
names is part of the engine, which is not in the source files). -/
def eqFold (a b : String) : Bool :=
  decide (caseFold a = caseFold b)

/-- The attribute definitions found `depth` levels below a list of top-level definitions
(`depth = 0`: the list itself). -/
def attributesAtDepth : Nat → List CoreAttribute → List CoreAttribute
  | 0, attrs => attrs
  | d + 1, attrs => attributesAtDepth d (attrs.flatMap CoreAttribute.subAttributes)

/-- The shape rule of an attribute definition: a complex attribute has at least one
sub-attribute and a non-complex attribute has none. -/
def WellShaped (a : CoreAttribute) : Prop :=
  (a.isComplex = true → 1 ≤ a.subAttributes.length) ∧
  (a.isComplex = false → a.subAttributes = [])

instance (a : CoreAttribute) : Decidable (WellShaped a) := by
  unfold WellShaped; infer_instance

/-- Modelled from the spec: the definitions among `attrs` that a path segment selects by
case-insensitive match, as in `attributeDefinition` of section 4.1 (the registry is not in
the source files). -/
def lookupSegment (attrs : List CoreAttribute) (segment : String) : List CoreAttribute :=
  attrs.filter fun a => eqFold a.name segment

/-- The names of the definitions among `attrs` that are declared required. -/
def requiredNames (attrs : List CoreAttribute) : List String :=
  (attrs.filter fun a => a.required).map CoreAttribute.name

/-- Every declaration of a schema, at any level: the top-level attributes and the
sub-attributes of the complex ones. -/
def declarations (s : Schema) : List CoreAttribute :=
  s.Attributes ++ s.Attributes.flatMap CoreAttribute.subAttributes

/-- Modelled from the spec: the attributes of a resource type for which the
`UniquenessIndex` of section 3 is kept (the store is not in the source files): the
top-level simple attributes of the base schema whose declaration sets uniqueness `server`
or `global`. -/
def indexedAttributes (rt : ResourceType) : List SimpleParams :=
  rt.Schema.Attributes.flatMap fun a =>
    match a with
    | SimpleCoreAttribute p =>
      if p.uniqueness = some AttributeUniqueness.server ∨
         p.uniqueness = some AttributeUniqueness.global then [p] else []
    | ComplexCoreAttribute _ => []

/-! ## The validation engine and the resource store

The engine behind `handlers.NewUserResourceHandler()` (attribute validator, uniqueness index,
resource store) is not among the source files. The definitions of this section follow the
wording of the specification, sections 3, 4.2, 4.5, 6 and 7, for the `create` mode and for
`delete`. Two points are left open by the specification and are parameters of the engine:
it names unknown-key rejection "strict mode" and also lets the normalized output drop
unknown fields (`strict`), and it has writes fail on literals that are malformed for the
declared kind without giving the grammar of a datetime or a reference (`lit`). Where the
specification and `TestPostUser` disagree the test is followed: it sends the empty string
for the required `type` of its second email and expects 201 Created, so the empty string
is a value; it also sends keys that no schema declares, so the claims on `POST /Users` are
stated for the engine that drops unknown keys. -/

/-- Modelled from the spec: the error taxonomy of section 7 (the engine is not in the
source files). -/
inductive EngineError where
  | UnknownResourceType
  | UnknownAttribute
  | TypeMismatch
  | MultiplicityMismatch
  | RequiredAttributeMissing
  | ImmutableAttributeModified
  | MultiplePrimaryValues
  | UniquenessConflict
  | MalformedPath
  | UnsupportedOperation
  | NoTargetMatched
  | MalformedFilter
  | NotFound
  | VersionConflict
  | StorageUnavailable
  deriving DecidableEq, Repr

open EngineError

/-- Modelled from the spec: an empty value (the validator is not in the source files). The
null value and the empty sequence are empty; the empty string is a value, as `TestPostUser`
requires. -/
def Value.isEmpty : Value → Bool
  | Value.null => true
  | Value.arr items => items.isEmpty
  | _ => false

/-- Modelled from the spec: the check of a string literal against a data kind (the
validator is not in the source files, and the specification does not give the grammar of a
well-formed datetime or reference literal): `lit k s` tells whether `s` is a well-formed
literal of kind `k`. -/
abbrev LiteralCheck := DataKind → String → Bool

/-- Modelled from the spec: the value a document supplies for a declared name (the
validator is not in the source files): the first member whose key matches the name
case-insensitively, provided its value is present and non-empty. -/
def supplied (name : String) (fields : Fields) : Option Value :=
  match fields.find? fun kv => eqFold kv.1 name with
  | some kv => if kv.2.isEmpty then none else some kv.2
  | none => none

/-- Modelled from the spec: whether a value has a declared data kind (the validator is not
in the source files). Every string has the string kind; a string has the datetime or the
reference kind when it is a well-formed literal of that kind; numbers have the decimal and
integer kinds, booleans the boolean kind, objects the complex kind. -/
def hasKind (lit : LiteralCheck) : DataKind → Value → Bool
  | DataKind.string, Value.str _ => true
  | DataKind.dateTime, Value.str s => lit DataKind.dateTime s
  | DataKind.reference, Value.str s => lit DataKind.reference s
  | DataKind.bool, Value.bool _ => true
  | DataKind.decimal, Value.num _ => true
  | DataKind.integer, Value.num _ => true
  | DataKind.complex, Value.obj _ => true
  | _, _ => false

/-- Modelled from the spec: the unknown-key rule of the validator (not in the source
files): in strict mode every key that matches none of the known names case-insensitively
is an `UnknownAttribute` violation; otherwise unknown keys are dropped. -/
def unknownKeyViolations (strict : Bool) (known : List String) (fields : Fields) :
    List EngineError :=
  if strict then
    fields.flatMap fun kv =>
      if known.any fun n => eqFold kv.1 n then [] else [UnknownAttribute]
  else []

/-- Modelled from the spec: the validator's rules for a simple attribute in `create` mode
(not in the source files). A `readOnly` attribute is dropped silently; a required attribute
must be supplied; a sequence is expected exactly for a multi-valued attribute; every value
must have the declared kind. -/
def simpleViolations (lit : LiteralCheck) (p : SimpleParams) (v : Option Value) :
    List EngineError :=
  if p.mutability = some AttributeMutability.readOnly then []
  else
    match v with
    | none => if p.required then [RequiredAttributeMissing] else []
    | some (Value.arr items) =>
      if p.multiValued then
        items.flatMap fun x => if hasKind lit p.typ x then [] else [TypeMismatch]
      else [MultiplicityMismatch]
    | some x =>
      if p.multiValued then [MultiplicityMismatch]
      else if hasKind lit p.typ x then [] else [TypeMismatch]

/-- Modelled from the spec: the validator's rules for the members of one complex value (not
in the source files): the unknown-key rule, then each sub-attribute definition against the
member it selects. -/
def objectViolations (strict : Bool) (lit : LiteralCheck) (subs : List SimpleParams)
    (fields : Fields) : List EngineError :=
  unknownKeyViolations strict (subs.map fun p => p.name) fields ++
    subs.flatMap fun p => simpleViolations lit p (supplied p.name fields)

/-- Modelled from the spec: the validator's rules for one element of a complex attribute
(not in the source files): the element must be an object. -/
def elementViolations (strict : Bool) (lit : LiteralCheck) (subs : List SimpleParams) :
    Value → List EngineError
  | Value.obj fields => objectViolations strict lit subs fields
  | _ => [TypeMismatch]

/-- Modelled from the spec: whether the sub-attribute schema defines a `primary` boolean
(the validator is not in the source files). -/
def definesPrimary (subs : List SimpleParams) : Bool :=
  subs.any fun p => eqFold p.name "primary" && decide (p.typ = DataKind.bool)

/-- Modelled from the spec: whether an element of a multi-valued complex attribute has
`primary = true` (the validator is not in the source files). -/
def isPrimary : Value → Bool
  | Value.obj fields =>
    match supplied "primary" fields with
    | some (Value.bool true) => true
    | _ => false
  | _ => false

/-- Modelled from the spec: the number of elements with `primary = true` (the validator is
not in the source files). -/
def primaryCount (items : List Value) : Nat :=
  (items.filter isPrimary).length

/-- Modelled from the spec: the validator's rules for a complex attribute in `create` mode
(not in the source files). A multi-valued complex attribute validates each element
independently and allows at most one element with `primary = true` where the sub-attribute
schema defines a `primary` boolean. -/
def complexViolations (strict : Bool) (lit : LiteralCheck) (p : ComplexParams)
    (v : Option Value) : List EngineError :=
  if p.Mutability = some AttributeMutability.readOnly then []
  else
    match v with
    | none => if p.Required then [RequiredAttributeMissing] else []
    | some (Value.arr items) =>
      if p.MultiValued then
        items.flatMap (elementViolations strict lit p.SubAttributes) ++
          (if definesPrimary p.SubAttributes && decide (1 < primaryCount items) then
            [MultiplePrimaryValues] else [])
      else [MultiplicityMismatch]
    | some x =>
      if p.MultiValued then [MultiplicityMismatch]
      else elementViolations strict lit p.SubAttributes x

/-- Modelled from the spec: the validator's dispatch on the kind of an attribute definition
(not in the source files). -/
def attributeViolations (strict : Bool) (lit : LiteralCheck) (a : CoreAttribute)
    (v : Option Value) : List EngineError :=
  match a with
  | SimpleCoreAttribute p => simpleViolations lit p v
  | ComplexCoreAttribute p => complexViolations strict lit p v

/-- Modelled from the spec: validation of a mapping against one schema (the validator is
not in the source files): the unknown-key rule over the schema's attribute names and the
given further keys, then each attribute definition against the member it selects. -/
def schemaViolations (strict : Bool) (lit : LiteralCheck) (s : Schema)
    (furtherKeys : List String) (fields : Fields) : List EngineError :=
  unknownKeyViolations strict (s.Attributes.map CoreAttribute.name ++ furtherKeys) fields ++
    s.Attributes.flatMap fun a => attributeViolations strict lit a (supplied a.name fields)

/-- Modelled from the spec: validation of the data of one schema extension, nested under
the extension's URN at the top level of the document (the validator is not in the source
files). -/
def extensionViolations (strict : Bool) (lit : LiteralCheck) (e : SchemaExtension)
    (fields : Fields) : List EngineError :=
  match supplied e.Schema.ID fields with
  | none => []
  | some (Value.obj nested) => schemaViolations strict lit e.Schema [] nested
  | some _ => [TypeMismatch]

/-- Modelled from the spec: `validate(schema, extensionSchemas, candidateDocument, create)`
of section 4.2 without its uniqueness rule (the validator is not in the source files): every
violated constraint, in document and declaration order. -/
def validationErrors (strict : Bool) (lit : LiteralCheck) (rt : ResourceType)
    (fields : Fields) : List EngineError :=
  schemaViolations strict lit rt.Schema (rt.SchemaExtensions.map fun e => e.Schema.ID)
      fields ++
    rt.SchemaExtensions.flatMap fun e => extensionViolations strict lit e fields

/-- Modelled from the spec: the normalized members of one complex value (the validator is
not in the source files): the supplied sub-attributes under their declared names, without
the `readOnly` ones. -/
def normalizeObject (subs : List SimpleParams) (fields : Fields) : Fields :=
  subs.filterMap fun p =>
    if p.mutability = some AttributeMutability.readOnly then none
    else (supplied p.name fields).map fun v => (p.name, v)

/-- Modelled from the spec: the normalized form of one element of a complex attribute (the
validator is not in the source files). -/
def normalizeElement (subs : List SimpleParams) : Value → Value
  | Value.obj fields => Value.obj (normalizeObject subs fields)
  | v => v

/-- Modelled from the spec: the normalized member of one attribute (the validator is not in
the source files): canonical key casing, `readOnly` values and unknown sub-keys dropped. -/
def normalizeAttribute (a : CoreAttribute) (fields : Fields) : Option (String × Value) :=
  if a.mutability = some AttributeMutability.readOnly then none
  else
    match a, supplied a.name fields with
    | _, none => none
    | SimpleCoreAttribute p, some v => some (p.name, v)
    | ComplexCoreAttribute p, some (Value.arr items) =>
      some (p.Name, Value.arr (items.map (normalizeElement p.SubAttributes)))
    | ComplexCoreAttribute p, some v => some (p.Name, normalizeElement p.SubAttributes v)

/-- Modelled from the spec: the normalized data of one schema extension, under its URN (the
validator is not in the source files). -/
def normalizeExtension (e : SchemaExtension) (fields : Fields) : Option (String × Value) :=
  match supplied e.Schema.ID fields with
  | some (Value.obj nested) =>
    some (e.Schema.ID, Value.obj (e.Schema.Attributes.filterMap fun a => normalizeAttribute a nested))
  | _ => none

/-- Modelled from the spec: the `NormalizedResource` of section 4.2 (the validator is not
in the source files). -/
def normalize (rt : ResourceType) (fields : Fields) : Fields :=
  (rt.Schema.Attributes.filterMap fun a => normalizeAttribute a fields) ++
    rt.SchemaExtensions.filterMap fun e => normalizeExtension e fields

/-- Modelled from the spec: an entry of the `UniquenessIndex` of section 3 (the store is not
in the source files): the scope (the resource type for `server`, no resource type for
`global`), the attribute, the normalized value and the identifier of the resource. -/
structure IndexEntry where
  scope : Option String
  attr : String
  value : String
  id : Nat
  deriving DecidableEq, Repr

/-- Modelled from the spec: a stored `Resource` of section 3 (the store is not in the source
files): server-assigned identifier, version token, resource-type tag and the normalized
document. -/
structure StoredResource where
  id : Nat
  version : Nat
  resourceType : String
  fields : Fields

/-- Modelled from the spec: the state of the Resource Store of section 4.5 (not in the
source files): the resources, the uniqueness index and the next identifier to assign. -/
structure Store where
  resources : List StoredResource
  index : List IndexEntry
  nextId : Nat

/-- Modelled from the spec: the store before the first request (the store is not in the
source files). -/
def Store.empty : Store :=
  { resources := [], index := [], nextId := 1 }

/-- Modelled from the spec: normalization of a unique value (the store is not in the source
files): case-folded unless the attribute is case-exact. -/
def normalizeUnique (p : SimpleParams) (s : String) : String :=
  if p.caseExact then s else caseFold s

/-- Modelled from the spec: the normalized string values that a document supplies for an
indexed attribute (the store is not in the source files). -/
def uniqueValues (p : SimpleParams) (fields : Fields) : List String :=
  match supplied p.name fields with
  | some (Value.str s) => [normalizeUnique p s]
  | some (Value.arr items) =>
    items.filterMap fun x =>
      match x with
      | Value.str s => some (normalizeUnique p s)
      | _ => none
  | _ => []

/-- Modelled from the spec: the scope under which an attribute is indexed (the store is not
in the source files): `server` per resource type, `global` across all resource types. -/
def indexScope (rt : ResourceType) (p : SimpleParams) : Option String :=
  if p.uniqueness = some AttributeUniqueness.global then none else some rt.Name

/-- Modelled from the spec: the index entries a document would own under identifier `id`
(the store is not in the source files). -/
def indexEntries (rt : ResourceType) (fields : Fields) (id : Nat) : List IndexEntry :=
  (indexedAttributes rt).flatMap fun p =>
    (uniqueValues p fields).map fun v =>
      { scope := indexScope rt p, attr := p.name, value := v, id := id }

/-- Modelled from the spec: whether the index already maps the key of an entry to some
resource (the store is not in the source files). -/
def indexed (index : List IndexEntry) (e : IndexEntry) : Bool :=
  index.any fun x =>
    decide (x.scope = e.scope) && decide (x.attr = e.attr) &&
      decide (x.value = e.value)

/-- Modelled from the spec: the uniqueness rule of section 4.2 on `create` (the store is
not in the source files): one `UniquenessConflict` for each key of the document that the
index already holds. -/
def uniquenessViolations (rt : ResourceType) (store : Store) (fields : Fields) :
    List EngineError :=
  (indexEntries rt fields store.nextId).flatMap fun e =>
    if indexed store.index e then [UniquenessConflict] else []

/-- Modelled from the spec: `create` of section 4.5 (the store is not in the source files).
All violated constraints are reported together; without violations the normalized resource
is stored under a fresh identifier and its index entries are added in the same step. -/
def create (strict : Bool) (lit : LiteralCheck) (rt : ResourceType) (store : Store)
    (fields : Fields) : Except (List EngineError) (Store × StoredResource) :=
  let errs := validationErrors strict lit rt fields ++ uniquenessViolations rt store fields
  if errs.isEmpty then
    let r : StoredResource :=
      { id := store.nextId, version := 1, resourceType := rt.Name,
        fields := normalize rt fields }
    Except.ok
      ({ resources := r :: store.resources,
         index := indexEntries rt fields store.nextId ++ store.index,
         nextId := store.nextId + 1 }, r)
  else Except.error errs

/-- Modelled from the spec: `delete(id, version)` of section 4.5 (the store is not in the
source files): `NotFound` on an unknown identifier, `VersionConflict` when an expected
version is given and differs, otherwise the resource and its index entries are removed
together. -/
def delete (store : Store) (id : Nat) (expected : Option Nat) : Except EngineError Store :=
  match store.resources.find? fun r => decide (r.id = id) with
  | none => Except.error NotFound
  | some r =>
    if expected.isSome && !decide (expected = some r.version) then Except.error VersionConflict
    else
      Except.ok
        { resources := store.resources.filter fun x => !decide (x.id = id),
          index := store.index.filter fun x => !decide (x.id = id),
          nextId := store.nextId }

/-- Modelled from the spec: `resolve(resourceTypeName)` of section 4.1, by endpoint (the
registry is not in the source files). -/
def resolve (args : ServerArgs) (endpoint : String) : Except EngineError ResourceType :=
  match args.ResourceTypes.find? fun rt => decide (rt.Endpoint = endpoint) with
  | some rt => Except.ok rt
  | none => Except.error UnknownResourceType

/-- Modelled from the spec: `POST /{Type}` of section 6 (the resource handler is not in the
source files): resolves the resource type and calls `create`. -/
def post (args : ServerArgs) (strict : Bool) (lit : LiteralCheck) (store : Store)
    (endpoint : String) (fields : Fields) :
    Except (List EngineError) (Store × StoredResource) :=
  match resolve args endpoint with
  | Except.ok rt => create strict lit rt store fields
  | Except.error e => Except.error [e]

/-- Modelled from the spec: the status of a `POST /{Type}` response, section 6 (the
resource handler is not in the source files): 201 on success, 404 for an unknown resource
type, 409 when uniqueness is the only violated constraint, 400 for validation failures. -/
def postStatus {α : Type} : Except (List EngineError) α → Nat
  | Except.ok _ => 201
  | Except.error errs =>
    if errs.contains UnknownResourceType then 404
    else if errs.all fun e => decide (e = UniquenessConflict) then 409
    else 400

/-! ## What a create request supplies

The conditions on a document under which the claims on `create` are stated, in terms of
what the document supplies for the declared attributes. -/

/-- The values a supplied value consists of: the elements of a sequence, or the value
itself. -/
def Value.elements : Value → List Value
  | Value.arr items => items
  | v => [v]

/-- The members of an object; no members for any other value. -/
def Value.members : Value → Fields
  | Value.obj fields => fields
  | _ => []

/-- A value has a declared kind and multiplicity: it is a sequence exactly when the
attribute is multi-valued, and each of its elements has the declared kind. -/
def hasDeclaredKind (lit : LiteralCheck) (typ : DataKind) (multiValued : Bool)
    (v : Value) : Bool :=
  (match v with
   | Value.arr _ => multiValued
   | _ => !multiValued) && v.elements.all (hasKind lit typ)

/-- The elements of what a mapping supplies for a name; none if it supplies nothing. -/
def suppliedElements (name : String) (fields : Fields) : List Value :=
  match supplied name fields with
  | none => []
  | some v => v.elements

/-- A mapping supplies a list of attribute definitions: every required attribute of the
list is supplied, and every value supplied for an attribute of the list has the declared
kind and multiplicity. -/
def Supplies (lit : LiteralCheck) (attrs : List CoreAttribute) (fields : Fields) : Prop :=
  ∀ a ∈ attrs,
    (a.required = true → (supplied a.name fields).isSome = true) ∧
      (supplied a.name fields).all (hasDeclaredKind lit a.typ a.multiValued) = true

instance (lit : LiteralCheck) (attrs : List CoreAttribute) (fields : Fields) :
    Decidable (Supplies lit attrs fields) := by
  unfold Supplies; infer_instance

/-- Every element a document supplies for a complex attribute of the list supplies the
sub-attributes of that attribute. -/
def ElementsSupply (lit : LiteralCheck) (attrs : List CoreAttribute) (fields : Fields) :
    Prop :=
  ∀ a ∈ attrs, ∀ x ∈ suppliedElements a.name fields, Supplies lit a.subAttributes x.members

instance (lit : LiteralCheck) (attrs : List CoreAttribute) (fields : Fields) :
    Decidable (ElementsSupply lit attrs fields) := by
  unfold ElementsSupply; infer_instance

/-- No attribute of the list is supplied with more than one element that has
`primary = true`. -/
def AtMostOnePrimary (attrs : List CoreAttribute) (fields : Fields) : Prop :=
  ∀ a ∈ attrs, primaryCount (suppliedElements a.name fields) ≤ 1

instance (attrs : List CoreAttribute) (fields : Fields) :
    Decidable (AtMostOnePrimary attrs fields) := by
  unfold AtMostOnePrimary; infer_instance

/-- Whatever a document nests under the URN of a schema extension is an object. -/
def ExtensionsAreObjects (lit : LiteralCheck) (rt : ResourceType) (fields : Fields) : Prop :=
  ∀ e ∈ rt.SchemaExtensions,
    (supplied e.Schema.ID fields).all (hasKind lit DataKind.complex) = true

instance (lit : LiteralCheck) (rt : ResourceType) (fields : Fields) :
    Decidable (ExtensionsAreObjects lit rt fields) := by
  unfold ExtensionsAreObjects; infer_instance

/-- A document supplies the required attributes of a resource type's base schema with
values of the declared kinds: every required top-level attribute is supplied with a value
of the declared multiplicity and kind. -/
def SuppliesRequired (lit : LiteralCheck) (rt : ResourceType) (fields : Fields) : Prop :=
  ∀ a ∈ rt.Schema.Attributes, a.required = true →
    (match supplied a.name fields with
     | none => false
     | some (Value.arr items) => a.multiValued && items.all (hasKind lit a.typ)
     | some x => !a.multiValued && hasKind lit a.typ x) = true

instance (lit : LiteralCheck) (rt : ResourceType) (fields : Fields) :
    Decidable (SuppliesRequired lit rt fields) := by
  unfold SuppliesRequired; infer_instance

/-- The case-folded `userName` string of a document, if it supplies one. -/
def foldedUserName (fields : Fields) : Option String :=
  match supplied "userName" fields with
  | some (Value.str u) => some (caseFold u)
  | _ => none

/-- The uniqueness index already holds the case-folded `userName` of a document for the
User resource type. -/
def UserNameTaken (store : Store) (fields : Fields) : Prop :=
  ∃ e ∈ store.index,
    e.scope = some "User" ∧ e.attr = "userName" ∧ some e.value = foldedUserName fields

instance (store : Store) (fields : Fields) : Decidable (UserNameTaken store fields) := by
  unfold UserNameTaken; infer_instance

/-- The sub-attribute definitions of the attribute of a schema with the given name. -/
def subAttributesOf (s : Schema) (name : String) : List CoreAttribute :=
  (s.Attributes.filter fun a => decide (a.name = name)).flatMap CoreAttribute.subAttributes

namespace Examples

/-- The literal check that accepts no string as a datetime or a reference. -/
def noLiteral : LiteralCheck :=
  fun _ _ => false

/-- A decoded `/Schemas` resource carrying the ID and the attribute names of a schema. -/
def schemaResource (s : Schema) : Resource :=
  { Attributes := s.Attributes.map fun a =>
      { Description := "", Mutability := "readWrite", Name := a.name, Returned := "default",
        Typ := "string", Uniqueness := "none", CaseExact := false,
        MultiValued := a.multiValued, Required := a.required }
    Description := s.Description.getD ""
    ID := s.ID
    Name := s.Name.getD ""
    Schemas := ["urn:ietf:params:scim:schemas:core:2.0:Schema"] }

/-- A document with a `userName` string, a `name` object and one email that has neither a
`value` nor a `type`. -/
def emailWithoutValueDocument : Fields :=
  [ ("userName", Value.str "alice"),
    ("name", Value.obj [("givenName", Value.str "Alice")]),
    ("emails", Value.arr [ Value.obj [("primary", Value.bool true)] ]) ]

/-- A document with a `userName`, a `name` and two emails that are both primary. -/
def twoPrimaryDocument : Fields :=
  [ ("userName", Value.str "alice"),
    ("name", Value.obj [("givenName", Value.str "Alice")]),
    ("emails", Value.arr [
      Value.obj [("value", Value.str "a@x"), ("type", Value.str "work"),
        ("primary", Value.bool true)],
      Value.obj [("value", Value.str "b@x"), ("type", Value.str "home"),
        ("primary", Value.bool true)] ]) ]

/-- The `TestPostUser` document restricted to declared keys, its second email given the
type `home`. -/
def declaredKeysDocument : Fields :=
  [ ("name", Value.obj [("formatted", Value.str "Testuser McTesties"),
      ("familyName", Value.str "McTesties"), ("givenName", Value.str "Testuser")]),
    ("userName", Value.str "mctestie"),
    ("emails", Value.arr [
      Value.obj [("type", Value.str "work"), ("value", Value.str "mctesties@testuser.com"),
        ("primary", Value.bool true)],
      Value.obj [("type", Value.str "home"), ("value", Value.str "testies@foo.com"),
        ("primary", Value.bool false)] ]),
    ("active", Value.bool true) ]

/-- A second document whose `userName` differs from that of `declaredKeysDocument` in
letter case only. -/
def upperCaseDocument : Fields :=
  [ ("userName", Value.str "McTestie"),
    ("name", Value.obj [("givenName", Value.str "Testuser")]) ]

/-- A store that already holds one user, `bob`. -/
def oneUserStore : Store :=
  { resources := [
      { id := 1, version := 1, resourceType := "User",
        fields := [("name", Value.obj []), ("userName", Value.str "bob")] } ]
    index := [ { scope := some "User", attr := "userName", value := "bob", id := 1 } ]
    nextId := 2 }

/-- The resource that creating `declaredKeysDocument` on `oneUserStore` stores. -/
def createdResource : StoredResource :=
  { id := 2, version := 1, resourceType := "User",
    fields := normalize NewServer.userResourceType declaredKeysDocument }

/-- The store after `declaredKeysDocument` has been created on `oneUserStore`. -/
def storeAfterCreate : Store :=
  { resources := createdResource :: oneUserStore.resources
    index :=
      { scope := some "User", attr := "userName", value := "mctestie", id := 2 }
        :: oneUserStore.index
    nextId := 3 }

end Examples

end Scim

namespace Scim

open CoreAttribute EngineError Examples

/-! ## Lemmas on the schema validators -/

theorem validateUserSchemaDiscover_fst (attrs : List Attribute) (st : List String × GoError) :
    (attrs.foldl
      (fun (st : List String × GoError) attr =>
        (st.1 ++ [attr.Name],
         if wellknownAttrs.contains attr.Name then st.2
         else ("unknown attr: " ++ attr.Name) :: st.2)) st).1
      = st.1 ++ attrs.map fun a => a.Name := by
  induction attrs generalizing st with
  | nil => simp
  | cons a rest ih =>
    simp only [List.foldl_cons]
    rw [ih]
    simp [List.append_assoc]

theorem validateUserSchemaDiscover_snd (attrs : List Attribute) (st : List String × GoError)
    (h : ∀ a ∈ attrs, wellknownAttrs.contains a.Name = true) :
    (attrs.foldl
      (fun (st : List String × GoError) attr =>
        (st.1 ++ [attr.Name],
         if wellknownAttrs.contains attr.Name then st.2
         else ("unknown attr: " ++ attr.Name) :: st.2)) st).2 = st.2 := by
  induction attrs generalizing st with
  | nil => simp
  | cons a rest ih =>
    have ha : wellknownAttrs.contains a.Name = true := h a (List.mem_cons_self _ _)
    have hrest : ∀ b ∈ rest, wellknownAttrs.contains b.Name = true :=
      fun b hb => h b (List.mem_cons_of_mem _ hb)
    simp only [List.foldl_cons]
    rw [ih _ hrest]
    exact if_pos ha

/-- The verdict of `validateUserSchema` on a resource that carries the attribute names of
the core User schema. -/
theorem validateUserSchema_of_represents (resource : Resource)
    (h : Represents resource NewServer.sc) : validateUserSchema resource = [] := by
  have hnames := h.2
  have hall : ∀ a ∈ resource.Attributes, wellknownAttrs.contains a.Name = true := by
    intro a ha
    have hmem : a.Name ∈ resource.Attributes.map (fun a => a.Name) :=
      List.mem_map_of_mem _ ha
    rw [hnames] at hmem
    have hdec : ∀ n ∈ NewServer.sc.Attributes.map CoreAttribute.name,
        wellknownAttrs.contains n = true := by decide
    exact hdec _ hmem
  unfold validateUserSchema validateUserSchemaDiscover
  simp only []
  rw [validateUserSchemaDiscover_snd _ _ hall, validateUserSchemaDiscover_fst]
  simp only [List.nil_append]
  rw [hnames]
  decide

/-- The validator that `schemaValidators` registers for the ID of the core User schema. -/
theorem lookup_user_validator :
    schemaValidators.lookup NewServer.sc.ID = some validateUserSchema := by
  rfl

/-- The validator that `schemaValidators` registers for the ID of the enterprise User
extension. -/
theorem lookup_enterprise_validator :
    schemaValidators.lookup NewServer.extension.ID = some validateEnterpriseUser := by
  rfl

/-- The schemas `NewServer` registers are the core User schema and the enterprise User
extension. -/
theorem registeredSchemas_newServer :
    registeredSchemas NewServer.serverArgs = [NewServer.sc, NewServer.extension] := by
  rfl

theorem attributesAtDepth_nil (d : Nat) : attributesAtDepth d [] = [] := by
  induction d with
  | zero => rfl
  | succ d ih => simpa [attributesAtDepth] using ih

/-- A case-insensitive lookup matches at most one definition of a list whose case-folded
names are pairwise distinct. -/
theorem lookupSegment_length_le_one (attrs : List CoreAttribute) (segment : String)
    (h : (attrs.map fun a => caseFold a.name).Nodup) :
    (lookupSegment attrs segment).length ≤ 1 := by
  induction attrs with
  | nil => simp [lookupSegment]
  | cons a rest ih =>
    rw [List.map_cons, List.nodup_cons] at h
    have hrest := ih h.2
    unfold lookupSegment at hrest ⊢
    by_cases hm : eqFold a.name segment = true
    · have hnone : rest.filter (fun b => eqFold b.name segment) = [] := by
        rw [List.filter_eq_nil_iff]
        intro b hb hbm
        apply h.1
        have h1 : caseFold a.name = caseFold segment := by simpa [eqFold] using hm
        have h2 : caseFold b.name = caseFold segment := by simpa [eqFold] using hbm
        rw [h1, ← h2]
        exact List.mem_map_of_mem (fun a => caseFold a.name) hb
      rw [List.filter_cons, if_pos hm, hnone]
      simp
    · rw [List.filter_cons, if_neg hm]
      exact hrest

/-! ## The claims on the declared schemas -/

/-- C1: the core User schema declared by `NewServer` has the ID
`urn:ietf:params:scim:schemas:core:2.0:User`, its top-level attribute names are exactly the
fourteen well-known names of `validateUserSchema` (each declared name is well known and each
well-known name is declared), and `validateUserSchema` returns no error on a `/Schemas`
resource that carries these names. -/
theorem user_schema_names_are_wellknown (resource : Resource)
    (h : Represents resource NewServer.sc) :
    NewServer.sc.ID = "urn:ietf:params:scim:schemas:core:2.0:User" ∧
      (∀ n, n ∈ NewServer.sc.Attributes.map CoreAttribute.name ↔ n ∈ wellknownAttrs) ∧
      (NewServer.sc.Attributes.map CoreAttribute.name).length = wellknownAttrs.length ∧
      validateUserSchema resource = [] := by
  refine ⟨rfl, ?_, by decide, validateUserSchema_of_represents resource h⟩
  intro n
  constructor
  · intro hn
    have hdec : ∀ m ∈ NewServer.sc.Attributes.map CoreAttribute.name, m ∈ wellknownAttrs := by
      decide
    exact hdec n hn
  · intro hn
    have hdec : ∀ m ∈ wellknownAttrs, m ∈ NewServer.sc.Attributes.map CoreAttribute.name := by
      decide
    exact hdec n hn

/-- Witness of C1 at the resource that carries the declared User schema. -/
theorem user_schema_names_are_wellknown_witness :
    Represents (schemaResource NewServer.sc) NewServer.sc ∧
      validateUserSchema (schemaResource NewServer.sc) = [] :=
  ⟨by decide, (user_schema_names_are_wellknown (schemaResource NewServer.sc) (by decide)).2.2.2⟩

/-- C2: every schema `NewServer` registers (the base schema of its resource type and the
schema of each extension) has an ID that is a key of `schemaValidators`, the validator
registered for that ID returns no error on a `/Schemas` resource carrying the names of the
schema's attributes, and so `validate` returns no error, in particular not
`unknown schema`. -/
theorem registered_schemas_pass_validate (s : Schema)
    (hs : s ∈ registeredSchemas NewServer.serverArgs) (resource : Resource)
    (h : Represents resource s) :
    s.ID ∈ schemaValidators.map Prod.fst ∧
      (∃ v, schemaValidators.lookup s.ID = some v ∧ v resource = []) ∧
      validate resource = [] ∧
      validate resource ≠ ["unknown schema: " ++ resource.ID] := by
  rw [registeredSchemas_newServer] at hs
  have hcases : s = NewServer.sc ∨ s = NewServer.extension := by simpa using hs
  have hid : resource.ID = s.ID := h.1
  rcases hcases with rfl | rfl
  · have hv : validateUserSchema resource = [] := validateUserSchema_of_represents resource h
    have hval : validate resource = [] := by
      unfold validate
      rw [hid, lookup_user_validator]
      exact hv
    refine ⟨by decide, ⟨validateUserSchema, lookup_user_validator, hv⟩, hval, ?_⟩
    rw [hval]
    exact fun hne => by cases hne
  · have hval : validate resource = [] := by
      unfold validate
      rw [hid, lookup_enterprise_validator]
      rfl
    refine ⟨by decide, ⟨validateEnterpriseUser, lookup_enterprise_validator, rfl⟩, hval, ?_⟩
    rw [hval]
    exact fun hne => by cases hne

/-- Witness of C2 at the enterprise User extension. -/
theorem registered_schemas_pass_validate_witness :
    NewServer.extension ∈ registeredSchemas NewServer.serverArgs ∧
      Represents (schemaResource NewServer.extension) NewServer.extension ∧
      validate (schemaResource NewServer.extension) = [] :=
  ⟨by decide, by decide,
    (registered_schemas_pass_validate NewServer.extension (by decide)
      (schemaResource NewServer.extension) (by decide)).2.2.1⟩

/-- C4: in every schema `NewServer` declares, every attribute definition at every nesting
level has at least one sub-attribute if it is complex and none if it is not. -/
theorem declared_attributes_well_shaped (s : Schema)
    (hs : s ∈ registeredSchemas NewServer.serverArgs) (depth : Nat) (a : CoreAttribute)
    (ha : a ∈ attributesAtDepth depth s.Attributes) : WellShaped a := by
  rw [registeredSchemas_newServer] at hs
  have hcases : s = NewServer.sc ∨ s = NewServer.extension := by simpa using hs
  have hdeep : ∀ t, t = NewServer.sc ∨ t = NewServer.extension →
      (t.Attributes.flatMap CoreAttribute.subAttributes).flatMap CoreAttribute.subAttributes
        = [] := by
    intro t ht
    rcases ht with rfl | rfl <;> decide
  have h0 : ∀ t, t = NewServer.sc ∨ t = NewServer.extension →
      ∀ b ∈ attributesAtDepth 0 t.Attributes, WellShaped b := by
    intro t ht
    rcases ht with rfl | rfl <;> decide
  have h1 : ∀ t, t = NewServer.sc ∨ t = NewServer.extension →
      ∀ b ∈ attributesAtDepth 1 t.Attributes, WellShaped b := by
    intro t ht
    rcases ht with rfl | rfl <;> decide
  match depth, ha with
  | 0, ha => exact h0 s hcases a ha
  | 1, ha => exact h1 s hcases a ha
  | d + 2, ha =>
    simp only [attributesAtDepth] at ha
    rw [hdeep s hcases, attributesAtDepth_nil] at ha
    exact absurd ha (List.not_mem_nil a)

/-- Witness of C4 at the `value` sub-attribute of `emails`, one level below the User
schema. -/
theorem declared_attributes_well_shaped_witness :
    NewServer.sc ∈ registeredSchemas NewServer.serverArgs ∧
      SimpleCoreAttribute (SimpleStringParams { Name := "value", Required := true })
        ∈ attributesAtDepth 1 NewServer.sc.Attributes ∧
      WellShaped (SimpleCoreAttribute (SimpleStringParams { Name := "value", Required := true })) :=
  ⟨by decide, by decide,
    declared_attributes_well_shaped NewServer.sc (by decide) 1
      (SimpleCoreAttribute (SimpleStringParams { Name := "value", Required := true }))
      (by decide)⟩

/-- C5: in every schema `NewServer` declares, the case-folded names of the top-level
attributes are pairwise distinct, as are those of the sub-attributes of each attribute, so
a case-insensitive lookup of any path segment matches at most one definition, at the top
level and within each complex attribute. -/
theorem declared_names_unique_case_insensitive :
    (∀ s ∈ registeredSchemas NewServer.serverArgs,
      (s.Attributes.map fun a => caseFold a.name).Nodup ∧
        ∀ a ∈ s.Attributes, (a.subAttributes.map fun b => caseFold b.name).Nodup) ∧
    (∀ s ∈ registeredSchemas NewServer.serverArgs, ∀ segment : String,
      (lookupSegment s.Attributes segment).length ≤ 1 ∧
        ∀ a ∈ s.Attributes, (lookupSegment a.subAttributes segment).length ≤ 1) := by
  have hnodup : ∀ s ∈ registeredSchemas NewServer.serverArgs,
      (s.Attributes.map fun a => caseFold a.name).Nodup ∧
        ∀ a ∈ s.Attributes, (a.subAttributes.map fun b => caseFold b.name).Nodup := by
    decide
  refine ⟨hnodup, ?_⟩
  intro s hs segment
  exact ⟨lookupSegment_length_le_one _ _ (hnodup s hs).1,
    fun a ha => lookupSegment_length_le_one _ _ ((hnodup s hs).2 a ha)⟩

/-- C7: the multi-valued complex attributes of the User schema declared by `NewServer` are
`emails` and `phoneNumbers`, each of them defines a sub-attribute named `primary` of kind
boolean, and the emails of the `TestPostUser` payload hold at most one element with
`primary = true`. -/
theorem multi_valued_complex_define_primary :
    (NewServer.sc.Attributes.filter fun a => a.isComplex && a.multiValued).map
        CoreAttribute.name = ["emails", "phoneNumbers"] ∧
    (∀ a ∈ NewServer.sc.Attributes, a.isComplex = true → a.multiValued = true →
      ∃ b ∈ a.subAttributes, b.name = "primary" ∧ b.typ = DataKind.bool) ∧
    (TestPostUser.payload.Emails.filter fun e => e.Primary).length ≤ 1 := by
  decide

/-- C8: the enterprise User extension registered by `NewServer` has the ID
`urn:ietf:params:scim:schemas:extension:enterprise:2.0:User` and an empty attribute list,
it is the only extension of the only resource type, User, and `validateEnterpriseUser`,
the validator `validate` selects for it, accepts every resource. -/
theorem enterprise_extension_is_empty :
    NewServer.extension.ID = "urn:ietf:params:scim:schemas:extension:enterprise:2.0:User" ∧
    NewServer.extension.Attributes = [] ∧
    NewServer.resourceTypes.map (fun rt => (rt.Name, rt.SchemaExtensions))
      = [("User", [{ Schema := NewServer.extension }])] ∧
    (∀ resource : Resource, validateEnterpriseUser resource = []) ∧
    (∀ resource : Resource, resource.ID = NewServer.extension.ID →
      validate resource = []) := by
  refine ⟨rfl, rfl, by decide, fun _ => rfl, ?_⟩
  intro resource hid
  unfold validate
  rw [hid, lookup_enterprise_validator]
  rfl

/-- C9: the required top-level attributes of the User schema declared by `NewServer` are
exactly `name` and `userName`; `name` has six sub-attributes, none of them required; the
required sub-attributes of `emails` and of `phoneNumbers` are exactly `value` and `type`;
so a document made of a `userName` string and a `name` object, whatever the members of that
object, has a key for every required attribute and every required sub-attribute of
`name`. -/
theorem required_attributes_of_user_schema :
    requiredNames NewServer.sc.Attributes = ["name", "userName"] ∧
    (subAttributesOf NewServer.sc "name").length = 6 ∧
    requiredNames (subAttributesOf NewServer.sc "name") = [] ∧
    requiredNames (subAttributesOf NewServer.sc "emails") = ["value", "type"] ∧
    requiredNames (subAttributesOf NewServer.sc "phoneNumbers") = ["value", "type"] ∧
    (∀ (u : String) (nameFields : Fields),
      (∀ n ∈ requiredNames NewServer.sc.Attributes,
        n ∈ ([("userName", Value.str u), ("name", Value.obj nameFields)] : Fields).map
          Prod.fst) ∧
      (∀ n ∈ requiredNames (subAttributesOf NewServer.sc "name"),
        n ∈ nameFields.map Prod.fst)) := by
  have h1 : requiredNames NewServer.sc.Attributes = ["name", "userName"] := by decide
  have h2 : requiredNames (subAttributesOf NewServer.sc "name") = [] := by decide
  refine ⟨h1, by decide, h2, by decide, by decide, ?_⟩
  intro u nameFields
  rw [h1, h2]
  constructor
  · intro n hn
    simp only [List.mem_cons, List.mem_singleton, List.not_mem_nil, or_false] at hn
    rcases hn with rfl | rfl <;> simp
  · intro n hn
    exact absurd hn (List.not_mem_nil n)

/-- C10: among all declarations of the schemas `NewServer` registers, at every level,
`userName` is the only one that sets uniqueness `server`, none sets `global`, every other
declaration sets `none` or sets no uniqueness, and the attributes a uniqueness index is
kept for are exactly `userName` of the User resource type. -/
theorem userName_is_the_only_unique_attribute :
    (((registeredSchemas NewServer.serverArgs).flatMap declarations).filter fun a =>
        decide (a.uniqueness = some AttributeUniqueness.server)).map CoreAttribute.name
      = ["userName"] ∧
    (((registeredSchemas NewServer.serverArgs).flatMap declarations).filter fun a =>
        decide (a.uniqueness = some AttributeUniqueness.global)) = [] ∧
    (((registeredSchemas NewServer.serverArgs).flatMap declarations).filter fun a =>
        decide (a.name = "userName")).length = 1 ∧
    (∀ a ∈ (registeredSchemas NewServer.serverArgs).flatMap declarations,
      a.name ≠ "userName" →
        a.uniqueness = none ∨ a.uniqueness = some AttributeUniqueness.none) ∧
    (NewServer.resourceTypes.flatMap fun rt =>
        (indexedAttributes rt).map fun p => (rt.Name, p.name)) = [("User", "userName")] := by
  decide


/-! ## The validator on what a document supplies -/

theorem simpleViolations_eq_nil (lit : LiteralCheck) (p : SimpleParams) (v : Option Value)
    (hreq : p.required = true → v.isSome = true)
    (hkind : v.all (hasDeclaredKind lit p.typ p.multiValued) = true) :
    simpleViolations lit p v = [] := by
  unfold simpleViolations
  by_cases hro : p.mutability = some AttributeMutability.readOnly
  · rw [if_pos hro]
  · rw [if_neg hro]
    cases v with
    | none =>
      cases hr : p.required with
      | false => simp
      | true => exact absurd (hreq hr) (by simp)
    | some x =>
      have h2 : hasDeclaredKind lit p.typ p.multiValued x = true := by simpa using hkind
      cases x with
      | arr items =>
        have hc : p.multiValued = true ∧ ∀ y ∈ items, hasKind lit p.typ y = true := by
          simpa [hasDeclaredKind, Value.elements] using h2
        simp only [hc.1, if_true]
        rw [List.flatMap_eq_nil_iff]
        intro y hy
        rw [if_pos (hc.2 y hy)]
      | null => simp [hasDeclaredKind, Value.elements, hasKind] at h2
      | bool b =>
        have hc : p.multiValued = false ∧ hasKind lit p.typ (Value.bool b) = true := by
          simpa [hasDeclaredKind, Value.elements] using h2
        simp [hc.1, hc.2]
      | num n =>
        have hc : p.multiValued = false ∧ hasKind lit p.typ (Value.num n) = true := by
          simpa [hasDeclaredKind, Value.elements] using h2
        simp [hc.1, hc.2]
      | str t =>
        have hc : p.multiValued = false ∧ hasKind lit p.typ (Value.str t) = true := by
          simpa [hasDeclaredKind, Value.elements] using h2
        simp [hc.1, hc.2]
      | obj fs =>
        have hc : p.multiValued = false ∧ hasKind lit p.typ (Value.obj fs) = true := by
          simpa [hasDeclaredKind, Value.elements] using h2
        simp [hc.1, hc.2]

theorem objectViolations_eq_nil (lit : LiteralCheck) (subs : List SimpleParams)
    (fields : Fields) (h : Supplies lit (subs.map SimpleCoreAttribute) fields) :
    objectViolations false lit subs fields = [] := by
  unfold objectViolations
  rw [List.append_eq_nil]
  refine ⟨rfl, ?_⟩
  rw [List.flatMap_eq_nil_iff]
  intro p hp
  have hp2 := h (SimpleCoreAttribute p) (List.mem_map_of_mem SimpleCoreAttribute hp)
  exact simpleViolations_eq_nil lit p _ hp2.1 hp2.2

theorem elementViolations_eq_nil (lit : LiteralCheck) (subs : List SimpleParams) (x : Value)
    (hobj : hasKind lit DataKind.complex x = true)
    (h : Supplies lit (subs.map SimpleCoreAttribute) x.members) :
    elementViolations false lit subs x = [] := by
  cases x with
  | obj fs => exact objectViolations_eq_nil lit subs fs h
  | null => simp [hasKind] at hobj
  | bool b => simp [hasKind] at hobj
  | num n => simp [hasKind] at hobj
  | str t => simp [hasKind] at hobj
  | arr items => simp [hasKind] at hobj

theorem complexViolations_eq_nil (lit : LiteralCheck) (p : ComplexParams) (fields : Fields)
    (hreq : p.Required = true → (supplied p.Name fields).isSome = true)
    (hkind : (supplied p.Name fields).all
      (hasDeclaredKind lit DataKind.complex p.MultiValued) = true)
    (hsub : ∀ x ∈ suppliedElements p.Name fields,
      Supplies lit (p.SubAttributes.map SimpleCoreAttribute) x.members)
    (hprim : primaryCount (suppliedElements p.Name fields) ≤ 1) :
    complexViolations false lit p (supplied p.Name fields) = [] := by
  unfold complexViolations
  unfold suppliedElements at hsub hprim
  by_cases hro : p.Mutability = some AttributeMutability.readOnly
  · rw [if_pos hro]
  · rw [if_neg hro]
    cases hs : supplied p.Name fields with
    | none =>
      cases hr : p.Required with
      | false => simp
      | true =>
        have := hreq hr
        rw [hs] at this
        exact absurd this (by simp)
    | some x =>
      rw [hs] at hkind hsub hprim
      have h2 : hasDeclaredKind lit DataKind.complex p.MultiValued x = true := by
        simpa using hkind
      simp only [] at hsub hprim
      cases x with
      | arr items =>
        have hc : p.MultiValued = true ∧
            ∀ y ∈ items, hasKind lit DataKind.complex y = true := by
          simpa [hasDeclaredKind, Value.elements] using h2
        simp only [hc.1, if_true]
        rw [List.append_eq_nil]
        constructor
        · rw [List.flatMap_eq_nil_iff]
          intro y hy
          exact elementViolations_eq_nil lit _ y (hc.2 y hy) (hsub y hy)
        · have hcount : ¬ 1 < primaryCount items := Nat.not_lt.mpr hprim
          simp [hcount]
      | null => simp [hasDeclaredKind, Value.elements, hasKind] at h2
      | bool b => simp [hasDeclaredKind, Value.elements, hasKind] at h2
      | num n => simp [hasDeclaredKind, Value.elements, hasKind] at h2
      | str t => simp [hasDeclaredKind, Value.elements, hasKind] at h2
      | obj fs =>
        have hc : p.MultiValued = false := by
          simpa [hasDeclaredKind, Value.elements, hasKind] using h2
        simp only [hc]
        exact elementViolations_eq_nil lit p.SubAttributes (Value.obj fs) rfl
          (hsub _ (List.mem_singleton.mpr rfl))

/-- The validator reports no violation of a schema, with unknown keys dropped, on a mapping
that supplies the attributes of the schema and, in each element, their sub-attributes,
with at most one primary element per attribute. -/
theorem schemaViolations_eq_nil (lit : LiteralCheck) (s : Schema) (furtherKeys : List String)
    (fields : Fields) (htop : Supplies lit s.Attributes fields)
    (hsub : ElementsSupply lit s.Attributes fields)
    (hprim : AtMostOnePrimary s.Attributes fields) :
    schemaViolations false lit s furtherKeys fields = [] := by
  unfold schemaViolations
  rw [List.append_eq_nil]
  refine ⟨rfl, ?_⟩
  rw [List.flatMap_eq_nil_iff]
  intro a ha
  cases a with
  | SimpleCoreAttribute p =>
    exact simpleViolations_eq_nil lit p _ (htop _ ha).1 (htop _ ha).2
  | ComplexCoreAttribute p =>
    exact complexViolations_eq_nil lit p fields (htop _ ha).1 (htop _ ha).2
      (hsub _ ha) (hprim _ ha)

/-- The validator reports no violation on the data of the extensions of the User resource
type, with unknown keys dropped, when that data is an object. -/
theorem extensionViolations_user_eq_nil (lit : LiteralCheck) (fields : Fields)
    (hext : ExtensionsAreObjects lit NewServer.userResourceType fields)
    (e : SchemaExtension) (he : e ∈ NewServer.userResourceType.SchemaExtensions) :
    extensionViolations false lit e fields = [] := by
  have hobj := hext e he
  have he2 : e = { Schema := NewServer.extension } := by
    simpa [NewServer.userResourceType] using he
  subst he2
  unfold extensionViolations
  cases hs : supplied ({ Schema := NewServer.extension } : SchemaExtension).Schema.ID fields with
  | none => rfl
  | some x =>
    rw [hs] at hobj
    cases x with
    | obj nested => rfl
    | null => simp [hasKind] at hobj
    | bool b => simp [hasKind] at hobj
    | num n => simp [hasKind] at hobj
    | str t => simp [hasKind] at hobj
    | arr items => simp [hasKind] at hobj

/-- A document that supplies the attributes of the User schema supplies a `userName`
string. -/
theorem userName_of_supplies (lit : LiteralCheck) (fields : Fields)
    (h : Supplies lit NewServer.sc.Attributes fields) :
    ∃ u, supplied "userName" fields = some (Value.str u) := by
  have hmem : SimpleCoreAttribute (SimpleStringParams {
      Name := "userName", Required := true,
      Uniqueness := some AttributeUniqueness.server })
      ∈ NewServer.sc.Attributes := by
    decide
  have ha := h _ hmem
  simp only [CoreAttribute.name, CoreAttribute.required, CoreAttribute.typ,
    CoreAttribute.multiValued, SimpleStringParams] at ha
  cases hs : supplied "userName" fields with
  | none =>
    have := ha.1 trivial
    rw [hs] at this
    exact absurd this (by simp)
  | some v =>
    have hk := ha.2
    rw [hs] at hk
    cases v with
    | str t => exact ⟨t, rfl⟩
    | null => simp [hasDeclaredKind, Value.elements, hasKind] at hk
    | bool b => simp [hasDeclaredKind, Value.elements, hasKind] at hk
    | num n => simp [hasDeclaredKind, Value.elements, hasKind] at hk
    | arr items => simp [hasDeclaredKind, Value.elements, hasKind] at hk
    | obj fs => simp [hasDeclaredKind, Value.elements, hasKind] at hk

/-! ## The uniqueness index of the User resource type -/

theorem resolve_users :
    resolve NewServer.serverArgs "/Users" = Except.ok NewServer.userResourceType := by
  rfl

theorem indexed_iff (index : List IndexEntry) (e : IndexEntry) :
    indexed index e = true ↔
      ∃ x ∈ index, x.scope = e.scope ∧ x.attr = e.attr ∧ x.value = e.value := by
  simp [indexed, and_assoc]

/-- The index entries of a User document with `userName` string `u`: one entry, for the
case-folded `userName`. -/
theorem indexEntries_user (fields : Fields) (u : String) (id : Nat)
    (h : supplied "userName" fields = some (Value.str u)) :
    indexEntries NewServer.userResourceType fields id
      = [{ scope := some "User", attr := "userName", value := caseFold u, id := id }] := by
  have hattrs : indexedAttributes NewServer.userResourceType
      = [SimpleStringParams {
          Name := "userName", Required := true,
          Uniqueness := some AttributeUniqueness.server }] := by
    decide
  unfold indexEntries
  rw [hattrs]
  simp [uniqueValues, SimpleStringParams, h, normalizeUnique, indexScope,
    NewServer.userResourceType]

/-- The uniqueness rule on a User document with `userName` string `u`: a conflict exactly
when the index holds the case-folded `userName` for the User resource type. -/
theorem uniquenessViolations_user (store : Store) (fields : Fields) (u : String)
    (h : supplied "userName" fields = some (Value.str u)) :
    uniquenessViolations NewServer.userResourceType store fields
      = if indexed store.index
          { scope := some "User", attr := "userName", value := caseFold u, id := store.nextId }
        then [UniquenessConflict] else [] := by
  unfold uniquenessViolations
  rw [indexEntries_user fields u _ h]
  simp

theorem foldedUserName_of_supplied (fields : Fields) (u : String)
    (h : supplied "userName" fields = some (Value.str u)) :
    foldedUserName fields = some (caseFold u) := by
  simp [foldedUserName, h]

/-- The result of `create` when nothing is violated. -/
theorem create_ok (strict : Bool) (lit : LiteralCheck) (rt : ResourceType) (store : Store)
    (fields : Fields) (hv : validationErrors strict lit rt fields = [])
    (hu : uniquenessViolations rt store fields = []) :
    create strict lit rt store fields = Except.ok
      ({ resources :=
           { id := store.nextId, version := 1, resourceType := rt.Name,
             fields := normalize rt fields } :: store.resources,
         index := indexEntries rt fields store.nextId ++ store.index,
         nextId := store.nextId + 1 },
       { id := store.nextId, version := 1, resourceType := rt.Name,
         fields := normalize rt fields }) := by
  simp [create, hv, hu]

/-- The result of `create` when something is violated. -/
theorem create_error (strict : Bool) (lit : LiteralCheck) (rt : ResourceType) (store : Store)
    (fields : Fields)
    (h : validationErrors strict lit rt fields ++ uniquenessViolations rt store fields ≠ []) :
    create strict lit rt store fields = Except.error
      (validationErrors strict lit rt fields ++ uniquenessViolations rt store fields) := by
  unfold create
  simp only []
  rw [if_neg]
  rw [List.isEmpty_iff]
  exact h

/-- A successful `create` reported no violation and returned the store and the resource
that `create` builds. -/
theorem create_ok_inv (strict : Bool) (lit : LiteralCheck) (rt : ResourceType)
    (store store1 : Store) (fields : Fields) (r : StoredResource)
    (h : create strict lit rt store fields = Except.ok (store1, r)) :
    validationErrors strict lit rt fields = [] ∧
      uniquenessViolations rt store fields = [] ∧
      r.id = store.nextId ∧
      store1.resources = r :: store.resources ∧
      store1.index = indexEntries rt fields store.nextId ++ store.index ∧
      store1.nextId = store.nextId + 1 := by
  by_cases he :
      validationErrors strict lit rt fields ++ uniquenessViolations rt store fields = []
  · have hv := (List.append_eq_nil.mp he).1
    have hu := (List.append_eq_nil.mp he).2
    rw [create_ok strict lit rt store fields hv hu] at h
    injection h with h
    injection h with h1 h2
    subst h1 h2
    exact ⟨hv, hu, rfl, rfl, rfl, rfl⟩
  · rw [create_error strict lit rt store fields he] at h
    cases h

/-- The result of `delete` without an expected version on a store whose first resource with
the identifier is `r`. -/
theorem delete_ok (store : Store) (id : Nat) (r : StoredResource)
    (h : store.resources.find? (fun x => decide (x.id = id)) = some r) :
    delete store id none = Except.ok
      { resources := store.resources.filter fun x => !decide (x.id = id),
        index := store.index.filter fun x => !decide (x.id = id),
        nextId := store.nextId } := by
  unfold delete
  rw [h]
  rfl

/-- The validator reports no violation, with unknown keys dropped, on a document that
supplies the attributes of the User schema and, in each element, their sub-attributes,
with at most one primary element per attribute and an object under the extension URN. -/
theorem validationErrors_user_eq_nil (lit : LiteralCheck) (fields : Fields)
    (htop : Supplies lit NewServer.sc.Attributes fields)
    (hsub : ElementsSupply lit NewServer.sc.Attributes fields)
    (hprim : AtMostOnePrimary NewServer.sc.Attributes fields)
    (hext : ExtensionsAreObjects lit NewServer.userResourceType fields) :
    validationErrors false lit NewServer.userResourceType fields = [] := by
  unfold validationErrors
  rw [List.append_eq_nil]
  refine ⟨schemaViolations_eq_nil lit _ _ fields htop hsub hprim, ?_⟩
  rw [List.flatMap_eq_nil_iff]
  exact extensionViolations_user_eq_nil lit fields hext

/-- The uniqueness rule reports no conflict on a User document whose case-folded `userName`
the index does not hold. -/
theorem uniquenessViolations_user_eq_nil (store : Store) (fields : Fields) (u : String)
    (hu : supplied "userName" fields = some (Value.str u))
    (hfree : ¬ UserNameTaken store fields) :
    uniquenessViolations NewServer.userResourceType store fields = [] := by
  have hnot : indexed store.index
      { scope := some "User", attr := "userName", value := caseFold u, id := store.nextId }
      = false := by
    cases hidx : indexed store.index
      { scope := some "User", attr := "userName", value := caseFold u, id := store.nextId } with
    | false => rfl
    | true =>
      exfalso
      apply hfree
      obtain ⟨x, hx, h1, h2, h3⟩ := (indexed_iff _ _).mp hidx
      refine ⟨x, hx, h1, h2, ?_⟩
      rw [foldedUserName_of_supplied fields u hu, h3]
  rw [uniquenessViolations_user store fields u hu, hnot]
  rfl

theorem post_users_eq_create (strict : Bool) (lit : LiteralCheck) (store : Store)
    (fields : Fields) :
    post NewServer.serverArgs strict lit store "/Users" fields
      = create strict lit NewServer.userResourceType store fields := by
  unfold post
  rw [resolve_users]

/-! ## Every request the test client can encode -/

theorem isPrimary_email (e : Email) : isPrimary e.toJSON = e.Primary := by
  cases e with
  | mk t v p => cases p <;> rfl

theorem primaryCount_emails (emails : List Email) :
    primaryCount (emails.map Email.toJSON) = (emails.filter fun e => e.Primary).length := by
  unfold primaryCount
  induction emails with
  | nil => rfl
  | cons e rest ih =>
    simp only [List.map_cons, List.filter_cons, isPrimary_email]
    cases e.Primary <;> simp [ih]

theorem supplied_emails (r : CreateUserRequest) :
    supplied "emails" r.toJSON
      = if (r.Emails.map Email.toJSON).isEmpty then none
        else some (Value.arr (r.Emails.map Email.toJSON)) := by
  rfl

theorem suppliedElements_emails (r : CreateUserRequest) :
    suppliedElements "emails" r.toJSON = r.Emails.map Email.toJSON := by
  unfold suppliedElements
  rw [supplied_emails]
  cases h : r.Emails with
  | nil => rfl
  | cons e rest => rfl

/-- The encoding of every `CreateUserRequest` supplies the attributes of the User schema:
`name` as an object, `userName` as a string, `active` as a boolean and `emails` as a
sequence of objects. -/
theorem createUserRequest_supplies (lit : LiteralCheck) (r : CreateUserRequest) :
    Supplies lit NewServer.sc.Attributes r.toJSON := by
  unfold Supplies
  simp only [NewServer.sc, List.forall_mem_cons]
  refine ⟨of_decide_eq_true rfl, of_decide_eq_true rfl, of_decide_eq_true rfl,
    of_decide_eq_true rfl, of_decide_eq_true rfl, of_decide_eq_true rfl,
    of_decide_eq_true rfl, of_decide_eq_true rfl, of_decide_eq_true rfl,
    of_decide_eq_true rfl, of_decide_eq_true rfl, ?_, of_decide_eq_true rfl,
    of_decide_eq_true rfl, ?_⟩
  · refine ⟨fun h => (by cases h), ?_⟩
    simp only [CoreAttribute.name, CoreAttribute.typ, CoreAttribute.multiValued]
    rw [supplied_emails]
    split
    · rfl
    · simp [hasDeclaredKind, Value.elements, Email.toJSON, hasKind]
  · intro a ha
    cases ha

/-- In the encoding of every `CreateUserRequest` the `name` object and every email supply
the declared sub-attributes: every email has a `value` and a `type` string and a `primary`
boolean. -/
theorem createUserRequest_elementsSupply (lit : LiteralCheck) (r : CreateUserRequest) :
    ElementsSupply lit NewServer.sc.Attributes r.toJSON := by
  unfold ElementsSupply
  simp only [NewServer.sc, List.forall_mem_cons]
  refine ⟨of_decide_eq_true rfl, of_decide_eq_true rfl, of_decide_eq_true rfl,
    of_decide_eq_true rfl, of_decide_eq_true rfl, of_decide_eq_true rfl,
    of_decide_eq_true rfl, of_decide_eq_true rfl, of_decide_eq_true rfl,
    of_decide_eq_true rfl, of_decide_eq_true rfl, ?_, of_decide_eq_true rfl,
    of_decide_eq_true rfl, ?_⟩
  · intro x hx
    simp only [CoreAttribute.name] at hx
    rw [suppliedElements_emails, List.mem_map] at hx
    obtain ⟨e, _, rfl⟩ := hx
    exact of_decide_eq_true rfl
  · intro a ha
    cases ha

/-- The encoding of a `CreateUserRequest` has at most one primary element per attribute
when at most one of its emails is primary. -/
theorem createUserRequest_atMostOnePrimary (r : CreateUserRequest)
    (h : (r.Emails.filter fun e => e.Primary).length ≤ 1) :
    AtMostOnePrimary NewServer.sc.Attributes r.toJSON := by
  unfold AtMostOnePrimary
  simp only [NewServer.sc, List.forall_mem_cons]
  refine ⟨of_decide_eq_true rfl, of_decide_eq_true rfl, of_decide_eq_true rfl,
    of_decide_eq_true rfl, of_decide_eq_true rfl, of_decide_eq_true rfl,
    of_decide_eq_true rfl, of_decide_eq_true rfl, of_decide_eq_true rfl,
    of_decide_eq_true rfl, of_decide_eq_true rfl, ?_, of_decide_eq_true rfl,
    of_decide_eq_true rfl, ?_⟩
  · simp only [CoreAttribute.name]
    rw [suppliedElements_emails, primaryCount_emails]
    exact h
  · intro a ha
    cases ha

/-- The encoding of a `CreateUserRequest` nests nothing under the extension URN. -/
theorem createUserRequest_extensions (lit : LiteralCheck) (r : CreateUserRequest) :
    ExtensionsAreObjects lit NewServer.userResourceType r.toJSON :=
  of_decide_eq_true rfl

/-- Every request the test's `CreateUserRequest` can encode, `TestPostUser`'s among them,
is created with status 201 when at most one of its emails is primary and its case-folded
`userName` is not yet indexed. -/
theorem createUserRequest_created (lit : LiteralCheck) (store : Store)
    (r : CreateUserRequest) (hprim : (r.Emails.filter fun e => e.Primary).length ≤ 1)
    (hfree : ¬ UserNameTaken store r.toJSON) :
    postStatus (post NewServer.serverArgs false lit store "/Users" r.toJSON) = 201 := by
  have hv := validationErrors_user_eq_nil lit r.toJSON (createUserRequest_supplies lit r)
    (createUserRequest_elementsSupply lit r) (createUserRequest_atMostOnePrimary r hprim)
    (createUserRequest_extensions lit r)
  have hu : supplied "userName" r.toJSON = some (Value.str r.UserName) := rfl
  have huv := uniquenessViolations_user_eq_nil store r.toJSON r.UserName hu hfree
  rw [post_users_eq_create, create_ok false lit _ store r.toJSON hv huv]
  rfl

/-! ## Documents the engine rejects -/

/-- A create request whose `timezone` is a string that is not a well-formed datetime
literal is rejected with `TypeMismatch`, and is not answered 201. -/
theorem malformed_timezone_rejected (strict : Bool) (lit : LiteralCheck) (store : Store)
    (fields : Fields) (s : String)
    (hs : supplied "timezone" fields = some (Value.str s))
    (hl : lit DataKind.dateTime s = false) :
    TypeMismatch ∈ validationErrors strict lit NewServer.userResourceType fields ∧
      postStatus (post NewServer.serverArgs strict lit store "/Users" fields) ≠ 201 := by
  have hmem : TypeMismatch ∈ validationErrors strict lit NewServer.userResourceType fields := by
    unfold validationErrors schemaViolations
    apply List.mem_append_left
    apply List.mem_append_right
    rw [List.mem_flatMap]
    refine ⟨SimpleCoreAttribute (SimpleDateTimeParams { Name := "timezone", Required := false }),
      by decide, ?_⟩
    simp [attributeViolations, simpleViolations, CoreAttribute.name, SimpleDateTimeParams, hs,
      hasKind, hl]
  refine ⟨hmem, ?_⟩
  rw [post_users_eq_create]
  intro h201
  cases hc : create strict lit NewServer.userResourceType store fields with
  | error errs =>
    rw [hc] at h201
    unfold postStatus at h201
    simp only [] at h201
    split_ifs at h201 <;> exact absurd h201 (by decide)
  | ok pr =>
    obtain ⟨store1, r⟩ := pr
    obtain ⟨hv, _⟩ := create_ok_inv strict lit _ store store1 fields r hc
    rw [hv] at hmem
    exact absurd hmem (List.not_mem_nil _)

/-- A document with two primary emails is rejected with `MultiplePrimaryValues`. -/
theorem two_primary_emails_rejected :
    (∀ lit, validationErrors true lit NewServer.userResourceType twoPrimaryDocument
      = [MultiplePrimaryValues]) ∧
    (∀ lit, validationErrors false lit NewServer.userResourceType twoPrimaryDocument
      = [MultiplePrimaryValues]) :=
  ⟨fun _ => rfl, fun _ => rfl⟩

/-! ## The claims on `create` -/

/-- C3, counterexample: a document that supplies `userName` and `name` with values of the
declared kinds, and an email without the required `value` and `type`, is not created: the
validator reports `RequiredAttributeMissing` twice and the response status is 400, whether
or not unknown keys are rejected and whatever the literal check. -/
theorem post_users_email_without_value_rejected :
    (∀ lit, SuppliesRequired lit NewServer.userResourceType emailWithoutValueDocument) ∧
    (∀ lit, validationErrors true lit NewServer.userResourceType emailWithoutValueDocument
      = [RequiredAttributeMissing, RequiredAttributeMissing]) ∧
    (∀ lit, validationErrors false lit NewServer.userResourceType emailWithoutValueDocument
      = [RequiredAttributeMissing, RequiredAttributeMissing]) ∧
    (∀ lit, postStatus (post NewServer.serverArgs true lit Store.empty "/Users"
      emailWithoutValueDocument) = 400) ∧
    (∀ lit, postStatus (post NewServer.serverArgs false lit Store.empty "/Users"
      emailWithoutValueDocument) = 400) :=
  ⟨fun _ => of_decide_eq_true rfl, fun _ => rfl, fun _ => rfl, fun _ => rfl, fun _ => rfl⟩

/-- C3, amended: a create request POSTed to `/Users` succeeds with status 201 Created when
its document supplies the required attributes `name` and `userName` and, in every element
of a complex attribute, the required sub-attributes (`value` and `type` in `emails` and
`phoneNumbers`), every value it supplies for a declared attribute or sub-attribute has the
declared kind and multiplicity, no attribute has more than one element with
`primary = true`, what it nests under the extension URN is an object, and its case-folded
`userName` is not yet in the uniqueness index. Undeclared keys are dropped. The resource
is stored in normalized form under the next identifier and the index gains the case-folded
`userName`. -/
theorem post_users_creates_supplied (lit : LiteralCheck) (store : Store) (fields : Fields)
    (htop : Supplies lit NewServer.sc.Attributes fields)
    (hsub : ElementsSupply lit NewServer.sc.Attributes fields)
    (hprim : AtMostOnePrimary NewServer.sc.Attributes fields)
    (hext : ExtensionsAreObjects lit NewServer.userResourceType fields)
    (hfree : ¬ UserNameTaken store fields) :
    postStatus (post NewServer.serverArgs false lit store "/Users" fields) = 201 ∧
      ∃ store1 r u,
        post NewServer.serverArgs false lit store "/Users" fields = Except.ok (store1, r) ∧
          r.id = store.nextId ∧ r.resourceType = "User" ∧
          r.fields = normalize NewServer.userResourceType fields ∧
          store1.resources = r :: store.resources ∧
          supplied "userName" fields = some (Value.str u) ∧
          store1.index =
            { scope := some "User", attr := "userName", value := caseFold u,
              id := store.nextId } :: store.index := by
  obtain ⟨u, hu⟩ := userName_of_supplies lit fields htop
  have hv := validationErrors_user_eq_nil lit fields htop hsub hprim hext
  have huv := uniquenessViolations_user_eq_nil store fields u hu hfree
  rw [post_users_eq_create, create_ok false lit _ store fields hv huv,
    indexEntries_user fields u _ hu]
  exact ⟨rfl, _, _, u, rfl, rfl, rfl, rfl, rfl, hu, rfl⟩

/-- Witness of the amended C3: the `TestPostUser` payload as encoded, with its undeclared
keys `externalId`, `meta`, `schemas` and `roles` and the empty `type` of its second email,
on a store that holds another user and with the literal check that accepts nothing. -/
theorem post_users_creates_supplied_witness :
    Supplies noLiteral NewServer.sc.Attributes TestPostUser.payload.toJSON ∧
      ElementsSupply noLiteral NewServer.sc.Attributes TestPostUser.payload.toJSON ∧
      AtMostOnePrimary NewServer.sc.Attributes TestPostUser.payload.toJSON ∧
      ExtensionsAreObjects noLiteral NewServer.userResourceType TestPostUser.payload.toJSON ∧
      ¬ UserNameTaken oneUserStore TestPostUser.payload.toJSON ∧
      postStatus (post NewServer.serverArgs false noLiteral oneUserStore "/Users"
        TestPostUser.payload.toJSON) = 201 :=
  ⟨by decide, by decide, by decide, by decide, by decide,
    (post_users_creates_supplied noLiteral oneUserStore TestPostUser.payload.toJSON
      (by decide) (by decide) (by decide) (by decide) (by decide)).1⟩

/-- C6: `userName` is the indexed attribute of the User resource type, declared with
uniqueness `server` and not case-exact; once a User resource A with `userName` string `uA`
has been created, creating a valid User resource B whose `userName` equals A's after case
folding fails with `UniquenessConflict` alone (status 409); after A is deleted, B is
created. -/
theorem userName_conflict_until_deleted (strict : Bool) (lit : LiteralCheck)
    (store store1 : Store) (a b : Fields) (rA : StoredResource) (uA uB : String)
    (hA : create strict lit NewServer.userResourceType store a = Except.ok (store1, rA))
    (hB : validationErrors strict lit NewServer.userResourceType b = [])
    (hUA : supplied "userName" a = some (Value.str uA))
    (hUB : supplied "userName" b = some (Value.str uB))
    (hfold : caseFold uB = caseFold uA) :
    (indexedAttributes NewServer.userResourceType).map
        (fun p => (p.name, p.uniqueness, p.caseExact))
      = [("userName", some AttributeUniqueness.server, false)] ∧
      create strict lit NewServer.userResourceType store1 b
        = Except.error [UniquenessConflict] ∧
      postStatus (create strict lit NewServer.userResourceType store1 b) = 409 ∧
      ∃ store2, delete store1 rA.id none = Except.ok store2 ∧
        ∃ store3 rB,
          create strict lit NewServer.userResourceType store2 b
            = Except.ok (store3, rB) := by
  obtain ⟨_, huA, hid, hres, hidx, _⟩ := create_ok_inv strict lit _ store store1 a rA hA
  rw [indexEntries_user a uA _ hUA, List.singleton_append] at hidx
  -- B conflicts with the entry of A
  have hin : indexed store1.index
      { scope := some "User", attr := "userName", value := caseFold uB, id := store1.nextId }
      = true := by
    rw [indexed_iff, hidx]
    exact ⟨_, List.mem_cons_self _ _, rfl, rfl, hfold.symm⟩
  have huB : uniquenessViolations NewServer.userResourceType store1 b
      = [UniquenessConflict] := by
    rw [uniquenessViolations_user store1 b uB hUB, hin]
    rfl
  have hcB : create strict lit NewServer.userResourceType store1 b
      = Except.error [UniquenessConflict] := by
    rw [create_error strict lit _ store1 b (by rw [hB, huB]; simp), hB, huB]
    rfl
  -- the index held no entry for the name before A was created
  have hout : indexed store.index
      { scope := some "User", attr := "userName", value := caseFold uA, id := store.nextId }
      = false := by
    rw [uniquenessViolations_user store a uA hUA] at huA
    cases hi : indexed store.index
      { scope := some "User", attr := "userName", value := caseFold uA, id := store.nextId } with
    | false => rfl
    | true => rw [hi] at huA; simp at huA
  -- deleting A removes its entry
  have hfind : store1.resources.find? (fun x => decide (x.id = rA.id)) = some rA := by
    rw [hres]
    simp
  have hdel := delete_ok store1 rA.id rA hfind
  refine ⟨by decide, hcB, by rw [hcB]; decide, _, hdel, ?_⟩
  have hfree : indexed (store1.index.filter fun x => !decide (x.id = rA.id))
      { scope := some "User", attr := "userName", value := caseFold uB, id := store1.nextId }
      = false := by
    cases hi : indexed (store1.index.filter fun x => !decide (x.id = rA.id))
      { scope := some "User", attr := "userName", value := caseFold uB,
        id := store1.nextId } with
    | false => rfl
    | true =>
      exfalso
      obtain ⟨x, hx, h1, h2, h3⟩ := (indexed_iff _ _).mp hi
      rw [List.mem_filter, hidx, List.mem_cons] at hx
      have hne : x.id ≠ rA.id := by simpa using hx.2
      rcases hx.1 with hx1 | hx1
      · apply hne
        rw [hx1, hid]
      · have : indexed store.index
            { scope := some "User", attr := "userName", value := caseFold uA,
              id := store.nextId } = true := by
          rw [indexed_iff]
          exact ⟨x, hx1, h1, h2, by rw [h3]; exact hfold⟩
        rw [hout] at this
        cases this
  have huB2 : uniquenessViolations NewServer.userResourceType
      { resources := store1.resources.filter fun x => !decide (x.id = rA.id),
        index := store1.index.filter fun x => !decide (x.id = rA.id),
        nextId := store1.nextId } b = [] := by
    rw [uniquenessViolations_user _ b uB hUB]
    simp only []
    rw [hfree]
    rfl
  exact ⟨_, _, create_ok strict lit _ _ b hB huB2⟩

/-- Witness of C6: the `TestPostUser` document restricted to declared keys is created on a
store that holds another user; a document whose `userName` differs in letter case only
plays the role of B. -/
theorem userName_conflict_until_deleted_witness :
    create true noLiteral NewServer.userResourceType oneUserStore declaredKeysDocument
        = Except.ok (storeAfterCreate, createdResource) ∧
      validationErrors true noLiteral NewServer.userResourceType upperCaseDocument = [] ∧
      caseFold "McTestie" = caseFold "mctestie" ∧
      create true noLiteral NewServer.userResourceType storeAfterCreate upperCaseDocument
        = Except.error [UniquenessConflict] ∧
      ∃ store2, delete storeAfterCreate createdResource.id none = Except.ok store2 ∧
        ∃ store3 rB,
          create true noLiteral NewServer.userResourceType store2 upperCaseDocument
            = Except.ok (store3, rB) :=
  have h := userName_conflict_until_deleted true noLiteral oneUserStore storeAfterCreate
    declaredKeysDocument upperCaseDocument createdResource "mctestie" "McTestie"
    rfl (by decide) rfl rfl (by decide)
  ⟨rfl, by decide, by decide, h.2.1, h.2.2.2⟩

end Scim
